import Mathlib

/-!
# Budget Tracker — verification of the budget accounting engine

Shallow embedding of the core accounting/calendar code of the budget-tracker
repository (the TypeScript classes `BudgetCalculator` and `MonthNavigation`,
and the record types of `types.ts`).

Modelling conventions:

* TypeScript `number` amounts are modelled as `ℚ` (exact decimal arithmetic;
  IEEE rounding is not modelled).
* Month keys stay `String`; all string manipulation from the source
  (`split('-')`, `parseInt`, `toString`, `padStart(2, '0')`) is embedded by
  executable functions on `List Char`.  `parseInt` is modelled as
  `Option Int` (maximal sign+digit prefix); the `NaN` produced by JavaScript
  on unparsable input is mapped to the junk value `0` at use sites
  (`Option.getD`), which only matters for keys that are not of the shape
  `YYYY-MM` produced/consumed by the app.
* JavaScript `Date` instants are modelled by `Timestamp`: an absolute month
  index (`year * 12 + month₀`) plus an abstract tick inside that month,
  ordered lexicographically.  `new Date(y, m, 1)` is the instant
  `⟨jsFullYear y * 12 + m, 0⟩` (including the JS quirk mapping years 0–99 to
  1900–1999); `new Date(t.timestamp)` is the identity on this model.
* `calculateRolloverAmount` recurses on `getPreviousMonth`, which terminates
  in the app because the parsed month index strictly decreases.  It is
  embedded with an explicit structural fuel equal to that month index plus
  one (`monthFuel`), which is exactly the bound given by the source's
  termination argument; `rolloverFuel` returns `none` on fuel exhaustion,
  which a well-formed key can never trigger.
-/

namespace BudgetTracker

/-- Character is a decimal digit, as used to model `parseInt`. -/
def isDig (c : Char) : Bool := decide ('0' ≤ c) && decide (c ≤ '9')

/-- Numeric value of a digit character. -/
def charVal (c : Char) : Nat := c.toNat - 48

/-- Decimal digit rendered as a character (used to model `Number.toString`). -/
def digitChar (d : Nat) : Char :=
  match d with
  | 0 => '0' | 1 => '1' | 2 => '2' | 3 => '3' | 4 => '4'
  | 5 => '5' | 6 => '6' | 7 => '7' | 8 => '8' | 9 => '9'
  | _ => '*'

/-- Decimal digits of `n`, least significant first, with structural fuel
(`fuel ≥ n` suffices).  Models the digit loop of `Number.toString`. -/
def decDigitsAux : Nat → Nat → List Char
  | 0, _ => []
  | fuel + 1, n =>
    if n < 10 then [digitChar n] else digitChar (n % 10) :: decDigitsAux fuel (n / 10)

/-- Decimal rendering of a natural number, most significant digit first. -/
def natDecChars (n : Nat) : List Char := (decDigitsAux (n + 1) n).reverse

/-- Decimal rendering of an integer (model of JS template interpolation of a
number). -/
def intRepr (i : Int) : List Char :=
  if i < 0 then '-' :: natDecChars (-i).toNat else natDecChars i.toNat

/-- Value of a digit string, most significant digit first. -/
def digitsVal (l : List Char) : Nat := l.foldl (fun n c => 10 * n + charVal c) 0

/-- Model of `parseInt` on a nonnegative decimal string: value of the maximal
digit prefix, `none` when there is none (JS returns `NaN`). -/
def parseNatChars (l : List Char) : Option Nat :=
  let ds := l.takeWhile isDig
  if ds.isEmpty then none else some (digitsVal ds)

/-- Model of `parseInt` including an optional leading minus sign. -/
def parseIntChars (l : List Char) : Option Int :=
  if l.headD ' ' = '-' then (parseNatChars (l.drop 1)).map (fun n => -(n : Int))
  else (parseNatChars l).map (fun n => (n : Int))

/-- Model of `String.prototype.split('-')` on the character list. -/
def splitDashChars : List Char → List (List Char)
  | [] => [[]]
  | c :: cs =>
    if c = '-' then [] :: splitDashChars cs
    else
      match splitDashChars cs with
      | [] => [[c]]
      | p :: ps => (c :: p) :: ps

/-- Model of `padStart(2, '0')`. -/
def pad2 (l : List Char) : List Char :=
  if l.length < 2 then List.replicate (2 - l.length) '0' ++ l else l

/-- Year and month parts of a month key, as produced by
`const [year, month] = monthYear.split('-')` (missing parts give `[]`,
matching `undefined` whose `parseInt` is `NaN`). -/
def keyParts (monthYear : String) : List Char × List Char :=
  let parts := splitDashChars monthYear.data
  (parts.headD [], (parts.drop 1).headD [])

/-- Parsed year number of a month key (`parseInt(year)`, `NaN ↦ 0`). -/
def keyYearNum (monthYear : String) : Int :=
  (parseIntChars (keyParts monthYear).1).getD 0

/-- Parsed month number of a month key (`parseInt(month)`, `NaN ↦ 0`). -/
def keyMonthNum (monthYear : String) : Int :=
  (parseIntChars (keyParts monthYear).2).getD 0

/-- Canonical rendering of a (year, month) pair as a `YYYY-MM` style key:
the year in decimal followed by the zero-padded month.  This is exactly the
template `` `${year}-${month.toString().padStart(2, '0')}` `` used throughout
the source. -/
def mkKey (y : Int) (mo : Nat) : String :=
  String.mk (intRepr y ++ '-' :: pad2 (natDecChars mo))

/-- `BudgetCalculator.getPreviousMonth` / `MonthNavigation.getPreviousMonth`
(the two copies in the source are textually identical).  January rolls back
to December of the previous year; otherwise the original year part of the
string is reused and the decremented month is re-padded. -/
def getPreviousMonth (monthYear : String) : String :=
  if keyMonthNum monthYear = 1 then
    String.mk (intRepr (keyYearNum monthYear - 1) ++ '-' :: ['1', '2'])
  else
    String.mk ((keyParts monthYear).1 ++ '-' :: pad2 (intRepr (keyMonthNum monthYear - 1)))

/-- `BudgetCalculator.getNextMonth` / `MonthNavigation.getNextMonth`. -/
def getNextMonth (monthYear : String) : String :=
  if keyMonthNum monthYear = 12 then
    String.mk (intRepr (keyYearNum monthYear + 1) ++ '-' :: ['0', '1'])
  else
    String.mk ((keyParts monthYear).1 ++ '-' :: pad2 (intRepr (keyMonthNum monthYear + 1)))

/-- Transaction kind, the `'withdraw' | 'deposit'` union of `types.ts`. -/
inductive TxType where
  | withdraw
  | deposit
deriving DecidableEq, BEq

/-- Model of a JS `Date` instant: absolute month index
(`year * 12 + month₀`) and an abstract position inside the month, ordered
lexicographically. -/
structure Timestamp where
  monthIdx : Int
  tick : Nat
deriving DecidableEq

/-- Strict order on instants (model of `getTime()` comparison). -/
def tsLtB (a b : Timestamp) : Bool :=
  decide (a.monthIdx < b.monthIdx) ||
    (a.monthIdx == b.monthIdx && decide (a.tick < b.tick))

/-- Non-strict order on instants. -/
def tsLeB (a b : Timestamp) : Bool := !(tsLtB b a)

/-- The `Transaction` record of `types.ts`. -/
structure Transaction where
  id : Int
  device_id : String
  name : String
  amount : ℚ
  type : TxType
  timestamp : Timestamp
  created_at : String
  updated_at : String
  username : Option String
deriving DecidableEq

/-- The `MonthlyBudget` record of `types.ts`. -/
structure MonthlyBudget where
  id : Int
  month_year : String
  budget_amount : ℚ
  rollover_enabled : Bool
  created_at : String
  updated_at : String
deriving DecidableEq

/-- The `BudgetSummary` record of `types.ts`. -/
structure BudgetSummary where
  month_year : String
  budget_amount : ℚ
  total_transactions : ℚ
  remaining_budget : ℚ
  is_over_budget : Bool
  rollover_enabled : Bool
deriving DecidableEq

/-- Model of `new Date(y, m, 1)`: first instant of absolute month
`jsFullYear y * 12 + m`, including the JS constructor quirk that years 0–99
denote 1900–1999. -/
def jsFullYear (y : Int) : Int := if 0 ≤ y ∧ y ≤ 99 then 1900 + y else y

/-- First instant of the month `m` (0-based) of year `y`. -/
def mkDate (y m : Int) : Timestamp := ⟨jsFullYear y * 12 + m, 0⟩

/-- `BudgetCalculator.getTransactionsForMonth`: keep the transactions whose
instant lies in `[new Date(y, m-1, 1), new Date(y, m, 1))`. -/
def getTransactionsForMonth (transactions : List Transaction) (monthYear : String) :
    List Transaction :=
  let year := keyYearNum monthYear
  let month := keyMonthNum monthYear
  let startDate := mkDate year (month - 1)
  let endDate := mkDate year month
  transactions.filter fun t => tsLeB startDate t.timestamp && tsLtB t.timestamp endDate

/-- The reduction step shared by `calculateTotalForMonth` and the inlined sum
of `calculateRolloverAmount`: withdrawals add, deposits subtract. -/
def txFoldStep (total : ℚ) (t : Transaction) : ℚ :=
  if t.type == TxType.withdraw then total + t.amount
  else if t.type == TxType.deposit then total - t.amount
  else total

/-- `BudgetCalculator.calculateTotalForMonth`. -/
def calculateTotalForMonth (transactions : List Transaction) (monthYear : String) : ℚ :=
  (getTransactionsForMonth transactions monthYear).foldl txFoldStep 0

/-- `BudgetCalculator.calculateRolloverAmount`, with explicit structural fuel
bounding the recursion depth; `none` means the fuel ran out before the
recursion bottomed out. -/
def rolloverFuel : Nat → List Transaction → List MonthlyBudget → String → Option ℚ
  | 0, _, _, _ => none
  | fuel + 1, transactions, budgets, currentMonth =>
    let previousMonth := getPreviousMonth currentMonth
    match budgets.find? (fun b => b.month_year == previousMonth) with
    | none => some 0
    | some prevBudget =>
      let inner : Option ℚ :=
        if prevBudget.rollover_enabled then rolloverFuel fuel transactions budgets previousMonth
        else some 0
      inner.map fun rolloverAmount =>
        let prevMonthSum := (getTransactionsForMonth transactions previousMonth).foldl txFoldStep 0
        prevBudget.budget_amount + rolloverAmount - prevMonthSum

/-- Fuel supplied to `rolloverFuel`: the parsed month index plus one.  The
source terminates because `getPreviousMonth` decreases this index by one on
every well-formed key, so this fuel is never exhausted on the app's keys. -/
def monthFuel (monthYear : String) : Nat :=
  (12 * keyYearNum monthYear + keyMonthNum monthYear).toNat + 1

/-- Total version of `BudgetCalculator.calculateRolloverAmount`. -/
def calculateRolloverAmount (transactions : List Transaction)
    (budgets : List MonthlyBudget) (currentMonth : String) : ℚ :=
  (rolloverFuel (monthFuel currentMonth) transactions budgets currentMonth).getD 0

/-- `BudgetCalculator.calculateBudgetSummary`.  The `created_at`/`updated_at`
instants of a synthesized budget (source: `new Date().toISOString()`) are
modelled by `""`; they influence no output field. -/
def calculateBudgetSummary (monthYear : String) (transactions : List Transaction)
    (budgets : List MonthlyBudget) (defaultBudgetAmount : ℚ) : BudgetSummary :=
  let budget : MonthlyBudget :=
    match budgets.find? (fun b => b.month_year == monthYear) with
    | none =>
      let rolloverAmount := calculateRolloverAmount transactions budgets monthYear
      { id := 0, month_year := monthYear,
        budget_amount := defaultBudgetAmount + rolloverAmount,
        rollover_enabled := true, created_at := "", updated_at := "" }
    | some budget =>
      if budget.rollover_enabled then
        { budget with
          budget_amount :=
            defaultBudgetAmount + calculateRolloverAmount transactions budgets monthYear }
      else
        { budget with budget_amount := defaultBudgetAmount }
  let totalTransactions := calculateTotalForMonth transactions monthYear
  let remainingBudget := budget.budget_amount - totalTransactions
  let isOverBudget : Bool := decide (remainingBudget < 0)
  { month_year := monthYear,
    budget_amount := budget.budget_amount,
    total_transactions := totalTransactions,
    remaining_budget := remainingBudget,
    is_over_budget := isOverBudget,
    rollover_enabled := budget.rollover_enabled }

/-- `BudgetCalculator.recalculateWithRolloverChange`. -/
def recalculateWithRolloverChange (monthYear : String) (transactions : List Transaction)
    (budgets : List MonthlyBudget) (newRolloverEnabled : Bool)
    (defaultBudgetAmount : ℚ) : BudgetSummary :=
  let updatedBudgets := budgets.map fun budget =>
    if budget.month_year == monthYear then { budget with rollover_enabled := newRolloverEnabled }
    else budget
  calculateBudgetSummary monthYear transactions updatedBudgets defaultBudgetAmount

/-- The reference definition of `totalForMonth` from the specification:
sum of the withdraw amounts minus the sum of the deposit amounts over the
month's transactions. -/
def totalForMonthSpec (transactions : List Transaction) (monthKey : String) : ℚ :=
  (((getTransactionsForMonth transactions monthKey).filter
      fun t => t.type == TxType.withdraw).map Transaction.amount).sum -
    (((getTransactionsForMonth transactions monthKey).filter
      fun t => t.type == TxType.deposit).map Transaction.amount).sum

/-- The reference recursive definition of `rolloverCarryIn` from the
specification, embedded with the same structural fuel as the code:
with `prev = previousMonth(monthKey)`, return 0 when no budget exists for
`prev`; otherwise `prev.budget_amount + innerCarry − totalForMonth(prev)`
where `innerCarry` recurses exactly when `prev` has rollover enabled. -/
def rolloverSpecFuel : Nat → List Transaction → List MonthlyBudget → String → Option ℚ
  | 0, _, _, _ => none
  | fuel + 1, transactions, budgets, monthKey =>
    let prev := getPreviousMonth monthKey
    match budgets.find? (fun b => b.month_year == prev) with
    | none => some 0
    | some prevBudget =>
      let innerCarry : Option ℚ :=
        if prevBudget.rollover_enabled then rolloverSpecFuel fuel transactions budgets prev
        else some 0
      innerCarry.map fun inner =>
        prevBudget.budget_amount + inner - totalForMonthSpec transactions prev

/-- Total version of the specification's `rolloverCarryIn`. -/
def rolloverCarryInSpec (transactions : List Transaction)
    (budgets : List MonthlyBudget) (monthKey : String) : ℚ :=
  (rolloverSpecFuel (monthFuel monthKey) transactions budgets monthKey).getD 0

/-- Iterated `getPreviousMonth`. -/
def prevIter : Nat → String → String
  | 0, m => m
  | i + 1, m => prevIter i (getPreviousMonth m)

/-- Well-formed month key: the zero-padded rendering of a four-digit year
and a month in 1..12, i.e. a canonical `YYYY-MM` string. -/
def WFKey (s : String) : Prop :=
  ∃ (y : Int) (mo : Nat), 1000 ≤ y ∧ y ≤ 9999 ∧ 1 ≤ mo ∧ mo ≤ 12 ∧ s = mkKey y mo

/-- Month index named by a (year, month) pair, `month` being 1-based. -/
def monthIdxP (y : Int) (mo : Nat) : Int := 12 * y + (mo : Int) - 1

/-- Year of an instant, as `getFullYear()` (floor division of the absolute
month index). -/
def tsYear (t : Timestamp) : Int := t.monthIdx / 12

/-- Month (0-based) of an instant, as `getMonth()`. -/
def tsMonth0 (t : Timestamp) : Int := t.monthIdx % 12

/-- `MonthNavigation.getFirstTrackedMonth`: sort the transactions by
timestamp ascending and render the month of the first one; with no
transactions, render the month of the ambient clock (`Date.now()`), passed
here as the explicit parameter `now`. -/
def getFirstTrackedMonth (now : Timestamp) (transactions : List Transaction) : String :=
  match (transactions.mergeSort fun a b => tsLeB a.timestamp b.timestamp).head? with
  | some first =>
    mkKey (tsYear first.timestamp) ((tsMonth0 first.timestamp).toNat + 1)
  | none => mkKey (tsYear now) ((tsMonth0 now).toNat + 1)

/-- Absolute month index of the month rendered by `getFirstTrackedMonth`. -/
def firstTrackedIdx (now : Timestamp) (transactions : List Transaction) : Int :=
  match (transactions.mergeSort fun a b => tsLeB a.timestamp b.timestamp).head? with
  | some first => first.timestamp.monthIdx
  | none => now.monthIdx

/-! ## Basic lemmas about the embedding -/

@[simp]
theorem txType_beq_withdraw_withdraw : (TxType.withdraw == TxType.withdraw) = true := rfl

@[simp]
theorem txType_beq_deposit_withdraw : (TxType.deposit == TxType.withdraw) = false := rfl

@[simp]
theorem txType_beq_withdraw_deposit : (TxType.withdraw == TxType.deposit) = false := rfl

@[simp]
theorem txType_beq_deposit_deposit : (TxType.deposit == TxType.deposit) = true := rfl

/-- The shared withdraw-minus-deposit fold is the difference of the two
filtered sums. -/
theorem foldl_txFoldStep (l : List Transaction) (a : ℚ) :
    l.foldl txFoldStep a =
      a + (((l.filter fun t => t.type == TxType.withdraw).map Transaction.amount).sum -
        ((l.filter fun t => t.type == TxType.deposit).map Transaction.amount).sum) := by
  induction l generalizing a with
  | nil => simp
  | cons t l ih =>
    rcases htt : t.type with _ | _ <;>
      simp [List.foldl_cons, txFoldStep, htt, List.filter_cons, ih] <;>
      ring

/-- `calculateTotalForMonth` agrees with the specification's
`totalForMonth`. -/
theorem calculateTotalForMonth_eq_spec (transactions : List Transaction) (monthKey : String) :
    calculateTotalForMonth transactions monthKey = totalForMonthSpec transactions monthKey := by
  unfold calculateTotalForMonth totalForMonthSpec
  rw [foldl_txFoldStep]
  exact zero_add _

/-- One step of `rolloverFuel` when no budget record exists for the previous
month. -/
theorem calculateRolloverAmount_of_find_none (transactions : List Transaction)
    (budgets : List MonthlyBudget) (m : String)
    (h : budgets.find? (fun b => b.month_year == getPreviousMonth m) = none) :
    calculateRolloverAmount transactions budgets m = 0 := by
  unfold calculateRolloverAmount monthFuel
  simp [rolloverFuel, h]

/-- One step of `rolloverFuel` when the previous month's record exists with
rollover disabled: the carry is the one-step surplus of that record, with no
recursive contribution. -/
theorem calculateRolloverAmount_of_find_disabled (transactions : List Transaction)
    (budgets : List MonthlyBudget) (m : String) (pb : MonthlyBudget)
    (hf : budgets.find? (fun b => b.month_year == getPreviousMonth m) = some pb)
    (hd : pb.rollover_enabled = false) :
    calculateRolloverAmount transactions budgets m =
      pb.budget_amount - calculateTotalForMonth transactions (getPreviousMonth m) := by
  unfold calculateRolloverAmount monthFuel calculateTotalForMonth
  simp [rolloverFuel, hf, hd]

/-- Shape of `calculateBudgetSummary` when no record exists for the month
(the lazily materialized budget). -/
theorem calculateBudgetSummary_find_none {monthYear : String} {ts : List Transaction}
    {bs : List MonthlyBudget} {d : ℚ}
    (h : bs.find? (fun b => b.month_year == monthYear) = none) :
    calculateBudgetSummary monthYear ts bs d =
      { month_year := monthYear,
        budget_amount := d + calculateRolloverAmount ts bs monthYear,
        total_transactions := calculateTotalForMonth ts monthYear,
        remaining_budget :=
          d + calculateRolloverAmount ts bs monthYear - calculateTotalForMonth ts monthYear,
        is_over_budget :=
          decide (d + calculateRolloverAmount ts bs monthYear -
            calculateTotalForMonth ts monthYear < 0),
        rollover_enabled := true } := by
  unfold calculateBudgetSummary
  rw [h]

/-- Shape of `calculateBudgetSummary` when a record exists for the month. -/
theorem calculateBudgetSummary_find_some {monthYear : String} {ts : List Transaction}
    {bs : List MonthlyBudget} {d : ℚ} {b : MonthlyBudget}
    (h : bs.find? (fun x => x.month_year == monthYear) = some b) :
    calculateBudgetSummary monthYear ts bs d =
      { month_year := monthYear,
        budget_amount :=
          if b.rollover_enabled then d + calculateRolloverAmount ts bs monthYear else d,
        total_transactions := calculateTotalForMonth ts monthYear,
        remaining_budget :=
          (if b.rollover_enabled then d + calculateRolloverAmount ts bs monthYear else d) -
            calculateTotalForMonth ts monthYear,
        is_over_budget :=
          decide ((if b.rollover_enabled then d + calculateRolloverAmount ts bs monthYear else d) -
            calculateTotalForMonth ts monthYear < 0),
        rollover_enabled := b.rollover_enabled } := by
  unfold calculateBudgetSummary
  rw [h]
  by_cases hr : b.rollover_enabled <;> simp [hr]

/-! ## Claim theorems -/

/-- C2: when a budget record exists for the month, the summary's effective
budget amount is `defaultBudgetAmount + rolloverCarryIn` if the record has
rollover enabled and exactly `defaultBudgetAmount` if it is disabled; the
stored `budget_amount` of the record is never the base. -/
theorem effectiveAmount_bases_on_default (monthYear : String)
    (transactions : List Transaction) (budgets : List MonthlyBudget)
    (defaultBudgetAmount : ℚ) (b : MonthlyBudget)
    (hb : budgets.find? (fun x => x.month_year == monthYear) = some b) :
    (calculateBudgetSummary monthYear transactions budgets defaultBudgetAmount).budget_amount =
      if b.rollover_enabled then
        defaultBudgetAmount + calculateRolloverAmount transactions budgets monthYear
      else defaultBudgetAmount := by
  rw [calculateBudgetSummary_find_some hb]

/-- Witness for C2: a stored record with `budget_amount = 555` and rollover
enabled, an empty ledger and default 200 summarize to 200, not 555. -/
theorem effectiveAmount_bases_on_default_witness :
    ([(⟨1, "2025-10", 555, true, "", ""⟩ : MonthlyBudget)].find?
        (fun x => x.month_year == "2025-10") =
      some ⟨1, "2025-10", 555, true, "", ""⟩) ∧
    (calculateBudgetSummary "2025-10" [] [⟨1, "2025-10", 555, true, "", ""⟩] 200).budget_amount
      = 200 := by
  refine ⟨rfl, ?_⟩
  have hfind : [(⟨1, "2025-10", 555, true, "", ""⟩ : MonthlyBudget)].find?
      (fun x => x.month_year == "2025-10") = some ⟨1, "2025-10", 555, true, "", ""⟩ := rfl
  have hprev : [(⟨1, "2025-10", 555, true, "", ""⟩ : MonthlyBudget)].find?
      (fun b => b.month_year == getPreviousMonth "2025-10") = none := rfl
  rw [effectiveAmount_bases_on_default "2025-10" [] [⟨1, "2025-10", 555, true, "", ""⟩] 200
    ⟨1, "2025-10", 555, true, "", ""⟩ hfind]
  rw [calculateRolloverAmount_of_find_none [] [⟨1, "2025-10", 555, true, "", ""⟩] "2025-10" hprev]
  norm_num

/-- C5: in every summary, `remaining_budget` is the effective budget amount
minus the month's total spend, and `is_over_budget` holds exactly when
`remaining_budget < 0`. -/
theorem remaining_budget_and_over_budget_flag (monthYear : String)
    (transactions : List Transaction) (budgets : List MonthlyBudget) (d : ℚ) :
    (calculateBudgetSummary monthYear transactions budgets d).total_transactions =
        calculateTotalForMonth transactions monthYear ∧
    (calculateBudgetSummary monthYear transactions budgets d).remaining_budget =
      (calculateBudgetSummary monthYear transactions budgets d).budget_amount -
        (calculateBudgetSummary monthYear transactions budgets d).total_transactions ∧
    ((calculateBudgetSummary monthYear transactions budgets d).is_over_budget = true ↔
      (calculateBudgetSummary monthYear transactions budgets d).remaining_budget < 0) := by
  cases hf : budgets.find? (fun x => x.month_year == monthYear) with
  | none => rw [calculateBudgetSummary_find_none hf]; exact ⟨rfl, rfl, decide_eq_true_iff⟩
  | some b => rw [calculateBudgetSummary_find_some hf]; exact ⟨rfl, rfl, decide_eq_true_iff⟩

/-- C10: when no record exists for the month, `recalculateWithRolloverChange`
ignores the requested flag — both flag values give identical summaries — and
the returned summary always has rollover enabled. -/
theorem recalc_ignores_flag_without_record (monthYear : String)
    (transactions : List Transaction) (budgets : List MonthlyBudget) (d : ℚ)
    (h : budgets.find? (fun b => b.month_year == monthYear) = none) :
    (∀ v w : Bool,
      recalculateWithRolloverChange monthYear transactions budgets v d =
        recalculateWithRolloverChange monthYear transactions budgets w d) ∧
    (∀ v : Bool,
      (recalculateWithRolloverChange monthYear transactions budgets v d).rollover_enabled
        = true) := by
  have hmem : ∀ b ∈ budgets, (b.month_year == monthYear) = false := by
    intro b hb
    have := List.find?_eq_none.mp h b hb
    simpa using this
  have hmap : ∀ v : Bool,
      (budgets.map fun budget =>
        if budget.month_year == monthYear then { budget with rollover_enabled := v }
        else budget) = budgets := by
    intro v
    have hcongr : ∀ b ∈ budgets,
        (if b.month_year == monthYear then ({ b with rollover_enabled := v } : MonthlyBudget)
          else b) = id b := by
      intro b hb
      simp [hmem b hb]
    rw [List.map_congr_left hcongr, List.map_id]
  constructor
  · intro v w
    unfold recalculateWithRolloverChange
    rw [hmap v, hmap w]
  · intro v
    unfold recalculateWithRolloverChange
    rw [hmap v, calculateBudgetSummary_find_none h]

/-- Witness for C10 at a concrete collection that has no record for the
requested month. -/
theorem recalc_ignores_flag_without_record_witness :
    (recalculateWithRolloverChange "2025-10" [] [⟨1, "2025-09", 100, false, "", ""⟩] true 200 =
      recalculateWithRolloverChange "2025-10" [] [⟨1, "2025-09", 100, false, "", ""⟩] false 200) ∧
    (recalculateWithRolloverChange "2025-10" [] [⟨1, "2025-09", 100, false, "", ""⟩] true 200).rollover_enabled = true := by
  have hfind : [(⟨1, "2025-09", 100, false, "", ""⟩ : MonthlyBudget)].find?
      (fun b => b.month_year == "2025-10") = none := rfl
  exact ⟨(recalc_ignores_flag_without_record "2025-10" []
      [⟨1, "2025-09", 100, false, "", ""⟩] 200 hfind).1 true false,
    (recalc_ignores_flag_without_record "2025-10" []
      [⟨1, "2025-09", 100, false, "", ""⟩] 200 hfind).2 true⟩

/-- C8 (amended): a month with no transactions and no stored record
summarizes with zero total, remaining equal to the effective amount, and is
not over budget whenever the effective amount is nonnegative (a negative
inherited carry-in can still push such a month over budget). -/
theorem fresh_month_summary_zero_spend (monthYear : String)
    (transactions : List Transaction) (budgets : List MonthlyBudget) (d : ℚ)
    (hb : budgets.find? (fun b => b.month_year == monthYear) = none)
    (ht : getTransactionsForMonth transactions monthYear = []) :
    (calculateBudgetSummary monthYear transactions budgets d).total_transactions = 0 ∧
    (calculateBudgetSummary monthYear transactions budgets d).remaining_budget =
      (calculateBudgetSummary monthYear transactions budgets d).budget_amount ∧
    (0 ≤ (calculateBudgetSummary monthYear transactions budgets d).budget_amount →
      (calculateBudgetSummary monthYear transactions budgets d).is_over_budget = false) := by
  have htot : calculateTotalForMonth transactions monthYear = 0 := by
    unfold calculateTotalForMonth
    rw [ht]
    rfl
  rw [calculateBudgetSummary_find_none hb]
  refine ⟨htot, ?_, ?_⟩
  · show d + calculateRolloverAmount transactions budgets monthYear -
        calculateTotalForMonth transactions monthYear =
      d + calculateRolloverAmount transactions budgets monthYear
    rw [htot, sub_zero]
  · intro hpos
    have h0 : 0 ≤ d + calculateRolloverAmount transactions budgets monthYear := hpos
    show decide (d + calculateRolloverAmount transactions budgets monthYear -
        calculateTotalForMonth transactions monthYear < 0) = false
    rw [htot, sub_zero]
    exact decide_eq_false (not_lt.mpr h0)

/-- Witness for C8 (amended) on the empty state. -/
theorem fresh_month_summary_zero_spend_witness :
    (calculateBudgetSummary "2025-10" [] [] 200).total_transactions = 0 ∧
    (calculateBudgetSummary "2025-10" [] [] 200).remaining_budget =
      (calculateBudgetSummary "2025-10" [] [] 200).budget_amount ∧
    (0 ≤ (calculateBudgetSummary "2025-10" [] [] 200).budget_amount →
      (calculateBudgetSummary "2025-10" [] [] 200).is_over_budget = false) :=
  fresh_month_summary_zero_spend "2025-10" [] [] 200 rfl rfl

/-- Counterexample to C8 as stated: October 2025 has no transactions and no
stored record, yet is over budget, because September's stored budget of 100
with 1000 spent leaves a carry-in of −900 against a default of 200. -/
theorem fresh_month_over_budget_with_negative_carry :
    ([(⟨1, "2025-09", 100, false, "", ""⟩ : MonthlyBudget)].find?
        (fun b => b.month_year == "2025-10") = none) ∧
    getTransactionsForMonth
        [⟨1, "dev", "rent", 1000, TxType.withdraw, ⟨24308, 0⟩, "", "", none⟩] "2025-10" = [] ∧
    (calculateBudgetSummary "2025-10"
        [⟨1, "dev", "rent", 1000, TxType.withdraw, ⟨24308, 0⟩, "", "", none⟩]
        [⟨1, "2025-09", 100, false, "", ""⟩] 200).is_over_budget = true := by
  have htot : calculateTotalForMonth
      [⟨1, "dev", "rent", 1000, TxType.withdraw, ⟨24308, 0⟩, "", "", none⟩] "2025-09" = 1000 := by
    show List.foldl txFoldStep 0 (getTransactionsForMonth
      [⟨1, "dev", "rent", 1000, TxType.withdraw, ⟨24308, 0⟩, "", "", none⟩] "2025-09") = 1000
    rw [show getTransactionsForMonth
        [⟨1, "dev", "rent", 1000, TxType.withdraw, ⟨24308, 0⟩, "", "", none⟩] "2025-09" =
      [⟨1, "dev", "rent", 1000, TxType.withdraw, ⟨24308, 0⟩, "", "", none⟩] from rfl]
    show txFoldStep 0 ⟨1, "dev", "rent", 1000, TxType.withdraw, ⟨24308, 0⟩, "", "", none⟩ = 1000
    norm_num [txFoldStep]
  have hfdis : [(⟨1, "2025-09", 100, false, "", ""⟩ : MonthlyBudget)].find?
      (fun b => b.month_year == getPreviousMonth "2025-10") =
      some ⟨1, "2025-09", 100, false, "", ""⟩ := rfl
  have hcarry : calculateRolloverAmount
      [⟨1, "dev", "rent", 1000, TxType.withdraw, ⟨24308, 0⟩, "", "", none⟩]
      [⟨1, "2025-09", 100, false, "", ""⟩] "2025-10" = -900 := by
    rw [calculateRolloverAmount_of_find_disabled
      [⟨1, "dev", "rent", 1000, TxType.withdraw, ⟨24308, 0⟩, "", "", none⟩]
      [⟨1, "2025-09", 100, false, "", ""⟩] "2025-10"
      ⟨1, "2025-09", 100, false, "", ""⟩ hfdis rfl]
    rw [show getPreviousMonth "2025-10" = "2025-09" from rfl, htot]
    norm_num
  have hfnone : [(⟨1, "2025-09", 100, false, "", ""⟩ : MonthlyBudget)].find?
      (fun b => b.month_year == "2025-10") = none := rfl
  refine ⟨rfl, rfl, ?_⟩
  rw [calculateBudgetSummary_find_none hfnone]
  show decide ((200 : ℚ) + calculateRolloverAmount _ _ "2025-10" -
      calculateTotalForMonth _ "2025-10" < 0) = true
  rw [hcarry, show calculateTotalForMonth
      [⟨1, "dev", "rent", 1000, TxType.withdraw, ⟨24308, 0⟩, "", "", none⟩] "2025-10" = 0 from rfl]
  rw [decide_eq_true_iff]
  norm_num

/-- C3 (amended): when the month before `m1` has its record present with
rollover disabled, the carry-in of `m1` is exactly that record's stored
budget amount minus that month's spend — the recursive chain stops there and
contributes nothing from earlier months — and the summary of `m1` (when its
own record has rollover enabled) adds exactly this one-step surplus to the
default amount. -/
theorem rollover_chain_stops_at_disabled_month (m1 : String)
    (transactions : List Transaction) (budgets : List MonthlyBudget) (d : ℚ)
    (bM b1 : MonthlyBudget)
    (hM : budgets.find? (fun b => b.month_year == getPreviousMonth m1) = some bM)
    (hMdis : bM.rollover_enabled = false)
    (h1 : budgets.find? (fun b => b.month_year == m1) = some b1)
    (h1en : b1.rollover_enabled = true) :
    calculateRolloverAmount transactions budgets m1 =
      bM.budget_amount - calculateTotalForMonth transactions (getPreviousMonth m1) ∧
    (calculateBudgetSummary m1 transactions budgets d).budget_amount =
      d + (bM.budget_amount - calculateTotalForMonth transactions (getPreviousMonth m1)) := by
  have hstep := calculateRolloverAmount_of_find_disabled transactions budgets m1 bM hM hMdis
  refine ⟨hstep, ?_⟩
  rw [calculateBudgetSummary_find_some h1]
  show (if b1.rollover_enabled then d + calculateRolloverAmount transactions budgets m1 else d) = _
  rw [h1en, if_pos rfl, hstep]

/-- Witness for C3 (amended) at a concrete two-record collection. -/
theorem rollover_chain_stops_at_disabled_month_witness :
    calculateRolloverAmount [] [⟨1, "2025-09", 100, false, "", ""⟩, ⟨2, "2025-10", 0, true, "", ""⟩]
        "2025-10" =
      (100 : ℚ) - calculateTotalForMonth [] (getPreviousMonth "2025-10") ∧
    (calculateBudgetSummary "2025-10" []
        [⟨1, "2025-09", 100, false, "", ""⟩, ⟨2, "2025-10", 0, true, "", ""⟩] 200).budget_amount =
      200 + ((100 : ℚ) - calculateTotalForMonth [] (getPreviousMonth "2025-10")) :=
  rollover_chain_stops_at_disabled_month "2025-10" []
    [⟨1, "2025-09", 100, false, "", ""⟩, ⟨2, "2025-10", 0, true, "", ""⟩] 200
    ⟨1, "2025-09", 100, false, "", ""⟩ ⟨2, "2025-10", 0, true, "", ""⟩ rfl rfl rfl rfl

/-- Counterexample to C3 as stated: September 2025 has rollover disabled and
a computed surplus of 100 (budget 100, no spend), yet October's summary
(whose record has rollover enabled) includes that carry: its effective
amount is 300, not the bare default 200. -/
theorem rollover_through_disabled_month_nonzero :
    ((⟨1, "2025-09", 100, false, "", ""⟩ : MonthlyBudget).rollover_enabled = false) ∧
    (calculateBudgetSummary "2025-10" []
        [⟨1, "2025-09", 100, false, "", ""⟩, ⟨2, "2025-10", 0, true, "", ""⟩] 200).budget_amount
      = 300 ∧
    ¬ ((calculateBudgetSummary "2025-10" []
        [⟨1, "2025-09", 100, false, "", ""⟩, ⟨2, "2025-10", 0, true, "", ""⟩] 200).budget_amount
      = 200) := by
  have hsum : (calculateBudgetSummary "2025-10" []
      [⟨1, "2025-09", 100, false, "", ""⟩, ⟨2, "2025-10", 0, true, "", ""⟩] 200).budget_amount
      = 300 := by
    have hf10 : [(⟨1, "2025-09", 100, false, "", ""⟩ : MonthlyBudget),
        ⟨2, "2025-10", 0, true, "", ""⟩].find? (fun x => x.month_year == "2025-10") =
        some ⟨2, "2025-10", 0, true, "", ""⟩ := rfl
    have hf09 : [(⟨1, "2025-09", 100, false, "", ""⟩ : MonthlyBudget),
        ⟨2, "2025-10", 0, true, "", ""⟩].find?
        (fun b => b.month_year == getPreviousMonth "2025-10") =
        some ⟨1, "2025-09", 100, false, "", ""⟩ := rfl
    rw [calculateBudgetSummary_find_some hf10]
    show (if (true : Bool) then (200 : ℚ) + calculateRolloverAmount []
        [⟨1, "2025-09", 100, false, "", ""⟩, ⟨2, "2025-10", 0, true, "", ""⟩] "2025-10"
      else 200) = 300
    rw [if_pos rfl,
      calculateRolloverAmount_of_find_disabled []
        [⟨1, "2025-09", 100, false, "", ""⟩, ⟨2, "2025-10", 0, true, "", ""⟩] "2025-10"
        ⟨1, "2025-09", 100, false, "", ""⟩ hf09 rfl]
    rw [show calculateTotalForMonth [] (getPreviousMonth "2025-10") = 0 from rfl]
    norm_num
  refine ⟨rfl, hsum, ?_⟩
  rw [hsum]
  norm_num

/-- With pairwise-distinct month keys, `find?` locates exactly the member
record with the requested key. -/
theorem find?_eq_some_of_nodup (bs : List MonthlyBudget) (b : MonthlyBudget) (x : String)
    (hnd : (bs.map MonthlyBudget.month_year).Nodup) (hb : b ∈ bs) (hx : b.month_year = x) :
    bs.find? (fun c => c.month_year == x) = some b := by
  induction bs with
  | nil => cases hb
  | cons c cs ih =>
    rcases List.mem_cons.mp hb with hbc | hbcs
    · subst hbc
      have hp : (b.month_year == x) = true := by simp [hx]
      simp [List.find?_cons, hp]
    · have hnd2 := hnd
      rw [List.map_cons, List.nodup_cons] at hnd2
      have hcx : b.month_year ∈ List.map MonthlyBudget.month_year cs :=
        List.mem_map_of_mem MonthlyBudget.month_year hbcs
      have hne : (c.month_year == x) = false := by
        apply beq_eq_false_iff_ne.mpr
        intro hceq
        exact hnd2.1 (by rw [hceq, ← hx]; exact hcx)
      simp only [List.find?_cons, hne]
      exact ih hnd2.2 hbcs

/-- Single step of `rolloverFuel` when the previous month has no record. -/
theorem rolloverFuel_succ_none (f : Nat) (ts : List Transaction) (bs : List MonthlyBudget)
    (m : String) (h : bs.find? (fun b => b.month_year == getPreviousMonth m) = none) :
    rolloverFuel (f + 1) ts bs m = some 0 := by
  simp [rolloverFuel, h]

/-- Single step of `rolloverFuel` when the previous month's record has
rollover disabled. -/
theorem rolloverFuel_succ_disabled (f : Nat) (ts : List Transaction) (bs : List MonthlyBudget)
    (m : String) (pb : MonthlyBudget)
    (h : bs.find? (fun b => b.month_year == getPreviousMonth m) = some pb)
    (hd : pb.rollover_enabled = false) :
    rolloverFuel (f + 1) ts bs m =
      some (pb.budget_amount -
        (getTransactionsForMonth ts (getPreviousMonth m)).foldl txFoldStep 0) := by
  simp [rolloverFuel, h, hd]

/-- Single step of `rolloverFuel` when the previous month's record has
rollover enabled. -/
theorem rolloverFuel_succ_enabled (f : Nat) (ts : List Transaction) (bs : List MonthlyBudget)
    (m : String) (pb : MonthlyBudget)
    (h : bs.find? (fun b => b.month_year == getPreviousMonth m) = some pb)
    (he : pb.rollover_enabled = true) :
    rolloverFuel (f + 1) ts bs m =
      (rolloverFuel f ts bs (getPreviousMonth m)).map fun r =>
        pb.budget_amount + r -
          (getTransactionsForMonth ts (getPreviousMonth m)).foldl txFoldStep 0 := by
  simp [rolloverFuel, h, he]

/-- The code's rollover recursion computes the specification's reference
`rolloverCarryIn` at every fuel. -/
theorem rolloverFuel_eq_spec (ts : List Transaction) (bs : List MonthlyBudget) :
    ∀ (f : Nat) (m : String), rolloverFuel f ts bs m = rolloverSpecFuel f ts bs m := by
  intro f
  induction f with
  | zero => intro m; rfl
  | succ f ih =>
    intro m
    simp only [rolloverFuel, rolloverSpecFuel]
    cases hfind : bs.find? (fun b => b.month_year == getPreviousMonth m) with
    | none => rfl
    | some pb =>
      have hsum : (getTransactionsForMonth ts (getPreviousMonth m)).foldl txFoldStep 0 =
          totalForMonthSpec ts (getPreviousMonth m) :=
        calculateTotalForMonth_eq_spec ts (getPreviousMonth m)
      by_cases hr : pb.rollover_enabled <;>
        simp [hr, ih, hsum]

/-! ## Claim theorems (continued) -/

/-- C6: `calculateTotalForMonth` is the sum of the month's withdraw amounts
minus the sum of its deposit amounts, it is 0 when the month has no
transactions, and a withdrawal of 50 with a deposit of 20 in October 2025
totals 30. -/
theorem totalForMonth_signed_sum :
    (∀ (transactions : List Transaction) (monthKey : String),
      calculateTotalForMonth transactions monthKey =
        (((getTransactionsForMonth transactions monthKey).filter
            fun t => t.type == TxType.withdraw).map Transaction.amount).sum -
          (((getTransactionsForMonth transactions monthKey).filter
            fun t => t.type == TxType.deposit).map Transaction.amount).sum) ∧
    (∀ (transactions : List Transaction) (monthKey : String),
      getTransactionsForMonth transactions monthKey = [] →
        calculateTotalForMonth transactions monthKey = 0) ∧
    calculateTotalForMonth
      [⟨1, "dev", "groceries", 50, TxType.withdraw, ⟨24309, 0⟩, "", "", none⟩,
       ⟨2, "dev", "refund", 20, TxType.deposit, ⟨24309, 1⟩, "", "", none⟩] "2025-10" = 30 := by
  refine ⟨fun transactions monthKey => calculateTotalForMonth_eq_spec transactions monthKey,
    fun transactions monthKey h => ?_, ?_⟩
  · unfold calculateTotalForMonth
    rw [h]
    rfl
  · show List.foldl txFoldStep 0 (getTransactionsForMonth
      [⟨1, "dev", "groceries", 50, TxType.withdraw, ⟨24309, 0⟩, "", "", none⟩,
       ⟨2, "dev", "refund", 20, TxType.deposit, ⟨24309, 1⟩, "", "", none⟩] "2025-10") = 30
    rw [show getTransactionsForMonth
        [⟨1, "dev", "groceries", 50, TxType.withdraw, ⟨24309, 0⟩, "", "", none⟩,
         ⟨2, "dev", "refund", 20, TxType.deposit, ⟨24309, 1⟩, "", "", none⟩] "2025-10" =
      [⟨1, "dev", "groceries", 50, TxType.withdraw, ⟨24309, 0⟩, "", "", none⟩,
       ⟨2, "dev", "refund", 20, TxType.deposit, ⟨24309, 1⟩, "", "", none⟩] from rfl]
    show txFoldStep (txFoldStep 0
      ⟨1, "dev", "groceries", 50, TxType.withdraw, ⟨24309, 0⟩, "", "", none⟩)
      ⟨2, "dev", "refund", 20, TxType.deposit, ⟨24309, 1⟩, "", "", none⟩ = 30
    norm_num [txFoldStep]

/-- Witness for C6: an empty ledger has an empty October and total 0. -/
theorem totalForMonth_signed_sum_witness :
    calculateTotalForMonth [] "2025-01" = 0 :=
  totalForMonth_signed_sum.2.1 [] "2025-01" rfl

/-- C1: `calculateRolloverAmount` equals the specification's recursive
reference definition of `rolloverCarryIn` on all inputs, and its result can
be negative as well as positive. -/
theorem rolloverCarryIn_matches_spec :
    (∀ (transactions : List Transaction) (budgets : List MonthlyBudget) (monthKey : String),
      calculateRolloverAmount transactions budgets monthKey =
        rolloverCarryInSpec transactions budgets monthKey) ∧
    (∃ (ts : List Transaction) (bs : List MonthlyBudget) (m : String),
      calculateRolloverAmount ts bs m < 0) ∧
    (∃ (ts : List Transaction) (bs : List MonthlyBudget) (m : String),
      0 < calculateRolloverAmount ts bs m) := by
  refine ⟨fun transactions budgets monthKey => ?_, ?_, ?_⟩
  · unfold calculateRolloverAmount rolloverCarryInSpec
    rw [rolloverFuel_eq_spec]
  · refine ⟨[⟨1, "dev", "splurge", 150, TxType.withdraw, ⟨24308, 0⟩, "", "", none⟩],
      [⟨1, "2025-09", 100, false, "", ""⟩], "2025-10", ?_⟩
    have hfdis : [(⟨1, "2025-09", 100, false, "", ""⟩ : MonthlyBudget)].find?
        (fun b => b.month_year == getPreviousMonth "2025-10") =
        some ⟨1, "2025-09", 100, false, "", ""⟩ := rfl
    rw [calculateRolloverAmount_of_find_disabled
      [⟨1, "dev", "splurge", 150, TxType.withdraw, ⟨24308, 0⟩, "", "", none⟩]
      [⟨1, "2025-09", 100, false, "", ""⟩] "2025-10" ⟨1, "2025-09", 100, false, "", ""⟩ hfdis rfl]
    have htot : calculateTotalForMonth
        [⟨1, "dev", "splurge", 150, TxType.withdraw, ⟨24308, 0⟩, "", "", none⟩]
        (getPreviousMonth "2025-10") = 150 := by
      rw [show getPreviousMonth "2025-10" = "2025-09" from rfl]
      show List.foldl txFoldStep 0 (getTransactionsForMonth
        [⟨1, "dev", "splurge", 150, TxType.withdraw, ⟨24308, 0⟩, "", "", none⟩] "2025-09") = 150
      rw [show getTransactionsForMonth
          [⟨1, "dev", "splurge", 150, TxType.withdraw, ⟨24308, 0⟩, "", "", none⟩] "2025-09" =
        [⟨1, "dev", "splurge", 150, TxType.withdraw, ⟨24308, 0⟩, "", "", none⟩] from rfl]
      show txFoldStep 0 ⟨1, "dev", "splurge", 150, TxType.withdraw, ⟨24308, 0⟩, "", "", none⟩ = 150
      norm_num [txFoldStep]
    rw [htot]
    norm_num
  · refine ⟨[], [⟨1, "2025-09", 100, false, "", ""⟩], "2025-10", ?_⟩
    have hfdis : [(⟨1, "2025-09", 100, false, "", ""⟩ : MonthlyBudget)].find?
        (fun b => b.month_year == getPreviousMonth "2025-10") =
        some ⟨1, "2025-09", 100, false, "", ""⟩ := rfl
    rw [calculateRolloverAmount_of_find_disabled [] [⟨1, "2025-09", 100, false, "", ""⟩]
      "2025-10" ⟨1, "2025-09", 100, false, "", ""⟩ hfdis rfl]
    rw [show calculateTotalForMonth [] (getPreviousMonth "2025-10") = 0 from rfl]
    norm_num

/-- C4: `rolloverFuel` succeeds exactly beyond fuel `k`, where `k` is the
number of consecutive preceding months that have (pairwise uniquely keyed)
budget records with rollover enabled: fuel `k + 1` suffices, fuel `k` is
exhausted, any larger fuel agrees with fuel `k + 1`, and the total function
`calculateRolloverAmount` computes that stable value whenever its parsed
month index covers the chain. -/
theorem rolloverFuel_depth_eq_enabled_chain (transactions : List Transaction)
    (budgets : List MonthlyBudget) (m : String) (k : Nat)
    (_hwf : ∀ b ∈ budgets, WFKey b.month_year)
    (hnodup : (budgets.map MonthlyBudget.month_year).Nodup)
    (hchain : ∀ i, 1 ≤ i → i ≤ k → ∃ b ∈ budgets,
        b.month_year = prevIter i m ∧ b.rollover_enabled = true)
    (hstop : ∀ b ∈ budgets, b.month_year = prevIter (k + 1) m → b.rollover_enabled = false) :
    (rolloverFuel (k + 1) transactions budgets m).isSome = true ∧
    rolloverFuel k transactions budgets m = none ∧
    (∀ f, k + 1 ≤ f → rolloverFuel f transactions budgets m =
      rolloverFuel (k + 1) transactions budgets m) ∧
    (k + 1 ≤ monthFuel m → calculateRolloverAmount transactions budgets m =
      (rolloverFuel (k + 1) transactions budgets m).getD 0) := by
  induction k generalizing m with
  | zero =>
    have hone : ∀ f, 1 ≤ f → rolloverFuel f transactions budgets m =
        rolloverFuel 1 transactions budgets m := by
      intro f hf
      obtain ⟨g, rfl⟩ : ∃ g, f = g + 1 := ⟨f - 1, by omega⟩
      cases hfind : budgets.find? (fun b => b.month_year == getPreviousMonth m) with
      | none =>
        rw [rolloverFuel_succ_none g transactions budgets m hfind,
          rolloverFuel_succ_none 0 transactions budgets m hfind]
      | some pb =>
        have hpb : pb.rollover_enabled = false := by
          refine hstop pb (List.mem_of_find?_eq_some hfind) ?_
          have := List.find?_some hfind
          simpa [beq_iff_eq] using this
        rw [rolloverFuel_succ_disabled g transactions budgets m pb hfind hpb,
          rolloverFuel_succ_disabled 0 transactions budgets m pb hfind hpb]
    refine ⟨?_, rfl, hone, fun hfuel => ?_⟩
    · cases hfind : budgets.find? (fun b => b.month_year == getPreviousMonth m) with
      | none => rw [rolloverFuel_succ_none 0 transactions budgets m hfind]; rfl
      | some pb =>
        have hpb : pb.rollover_enabled = false := by
          refine hstop pb (List.mem_of_find?_eq_some hfind) ?_
          have := List.find?_some hfind
          simpa [beq_iff_eq] using this
        rw [rolloverFuel_succ_disabled 0 transactions budgets m pb hfind hpb]
        rfl
    · unfold calculateRolloverAmount
      rw [hone (monthFuel m) hfuel]
  | succ k ih =>
    obtain ⟨b1, hb1mem, hb1key, hb1en⟩ := hchain 1 (by omega) (by omega)
    have hfind : budgets.find? (fun b => b.month_year == getPreviousMonth m) = some b1 :=
      find?_eq_some_of_nodup budgets b1 (getPreviousMonth m) hnodup hb1mem hb1key
    have ihm := ih (getPreviousMonth m)
      (fun i h1 h2 => hchain (i + 1) (by omega) (by omega))
      (fun b hb hkey => hstop b hb hkey)
    have hstep : ∀ f, rolloverFuel (f + 1) transactions budgets m =
        (rolloverFuel f transactions budgets (getPreviousMonth m)).map fun r =>
          b1.budget_amount + r -
            (getTransactionsForMonth transactions (getPreviousMonth m)).foldl txFoldStep 0 :=
      fun f => rolloverFuel_succ_enabled f transactions budgets m b1 hfind hb1en
    refine ⟨?_, ?_, ?_, fun hfuel => ?_⟩
    · rw [hstep (k + 1)]
      cases hx : rolloverFuel (k + 1) transactions budgets (getPreviousMonth m) with
      | none => simp [hx] at ihm
      | some v => simp
    · rw [hstep k, ihm.2.1]
      rfl
    · intro f hf
      obtain ⟨g, rfl⟩ : ∃ g, f = g + 1 := ⟨f - 1, by omega⟩
      rw [hstep g, hstep (k + 1), ihm.2.2.1 g (by omega)]
    · unfold calculateRolloverAmount
      obtain ⟨g, hg⟩ : ∃ g, monthFuel m = g + 1 := ⟨monthFuel m - 1, by omega⟩
      rw [hg, hstep g, hstep (k + 1), ihm.2.2.1 g (by omega)]

/-- Witness for C4: a two-record collection whose enabled chain before
October 2025 has length exactly one. -/
theorem rolloverFuel_depth_eq_enabled_chain_witness :
    (rolloverFuel 2 [] [⟨1, "2025-09", 100, true, "", ""⟩, ⟨2, "2025-08", 50, false, "", ""⟩]
      "2025-10").isSome = true ∧
    rolloverFuel 1 [] [⟨1, "2025-09", 100, true, "", ""⟩, ⟨2, "2025-08", 50, false, "", ""⟩]
      "2025-10" = none ∧
    rolloverFuel 7 [] [⟨1, "2025-09", 100, true, "", ""⟩, ⟨2, "2025-08", 50, false, "", ""⟩]
        "2025-10" =
      rolloverFuel 2 [] [⟨1, "2025-09", 100, true, "", ""⟩, ⟨2, "2025-08", 50, false, "", ""⟩]
        "2025-10" := by
  have h := rolloverFuel_depth_eq_enabled_chain []
    [⟨1, "2025-09", 100, true, "", ""⟩, ⟨2, "2025-08", 50, false, "", ""⟩] "2025-10" 1
    (by
      intro b hb
      rcases List.mem_cons.mp hb with h1 | h1
      · exact h1 ▸ ⟨2025, 9, by norm_num, by norm_num, by norm_num, by norm_num, rfl⟩
      · rcases List.mem_cons.mp h1 with h2 | h2
        · exact h2 ▸ ⟨2025, 8, by norm_num, by norm_num, by norm_num, by norm_num, rfl⟩
        · cases h2)
    (by simp)
    (by
      intro i h1 h2
      have hi : i = 1 := by omega
      subst hi
      exact ⟨⟨1, "2025-09", 100, true, "", ""⟩, by simp, rfl, rfl⟩)
    (by
      intro b hb heq
      rcases List.mem_cons.mp hb with h1 | h1
      · exfalso
        rw [h1] at heq
        exact absurd heq (by decide)
      · rcases List.mem_cons.mp h1 with h2 | h2
        · rw [h2]
        · cases h2)
  exact ⟨h.1, h.2.1, h.2.2.1 7 (by norm_num)⟩

/-! ## Decimal rendering and parsing lemmas -/

theorem decDigitsAux_succ (f n : Nat) :
    decDigitsAux (f + 1) n =
      if n < 10 then [digitChar n] else digitChar (n % 10) :: decDigitsAux f (n / 10) := rfl

theorem isDig_digitChar {d : Nat} (hd : d ≤ 9) : isDig (digitChar d) = true := by
  interval_cases d <;> decide

theorem charVal_digitChar {d : Nat} (hd : d ≤ 9) : charVal (digitChar d) = d := by
  interval_cases d <;> decide

theorem digitChar_ne_dash {d : Nat} (hd : d ≤ 9) : digitChar d ≠ '-' := by
  interval_cases d <;> decide

theorem digitChar_lt {d₁ d₂ : Nat} (h : d₁ < d₂) (h9 : d₂ ≤ 9) : digitChar d₁ < digitChar d₂ := by
  interval_cases d₂ <;> interval_cases d₁ <;> decide

theorem decDigitsAux_eq : ∀ f n, n ≤ f →
    decDigitsAux (f + 1) n = if n = 0 then ['0'] else (Nat.digits 10 n).map digitChar := by
  intro f
  induction f with
  | zero =>
    intro n hn
    interval_cases n
    rfl
  | succ f ih =>
    intro n hn
    by_cases h10 : n < 10
    · rw [decDigitsAux_succ, if_pos h10]
      by_cases h0 : n = 0
      · subst h0; rfl
      · rw [if_neg h0]
        rw [Nat.digits_def' (by norm_num : (1:ℕ) < 10) (Nat.pos_of_ne_zero h0)]
        rw [Nat.mod_eq_of_lt h10, Nat.div_eq_of_lt h10]
        simp
    · rw [decDigitsAux_succ, if_neg h10]
      have hn0 : n ≠ 0 := by omega
      rw [if_neg hn0]
      have hdiv : n / 10 ≤ f := by omega
      rw [ih (n / 10) hdiv, if_neg (by omega : ¬ n / 10 = 0)]
      rw [Nat.digits_def' (by norm_num : (1:ℕ) < 10) (Nat.pos_of_ne_zero hn0)]
      simp

theorem natDecChars_eq (n : Nat) :
    natDecChars n = if n = 0 then ['0'] else ((Nat.digits 10 n).map digitChar).reverse := by
  unfold natDecChars
  rw [decDigitsAux_eq n n le_rfl]
  by_cases h0 : n = 0
  · rw [if_pos h0, if_pos h0]; rfl
  · rw [if_neg h0, if_neg h0]

theorem natDecChars_ne_nil (n : Nat) : natDecChars n ≠ [] := by
  rw [natDecChars_eq]
  by_cases h0 : n = 0
  · simp [h0]
  · rw [if_neg h0]
    simp [Nat.digits_ne_nil_iff_ne_zero.mpr h0]

theorem mem_natDecChars_isDig {n : Nat} {c : Char} (hc : c ∈ natDecChars n) :
    isDig c = true := by
  rw [natDecChars_eq] at hc
  by_cases h0 : n = 0
  · rw [if_pos h0] at hc
    rcases List.mem_singleton.mp hc with rfl
    decide
  · rw [if_neg h0] at hc
    rw [List.mem_reverse] at hc
    obtain ⟨d, hd, rfl⟩ := List.mem_map.mp hc
    have : d < 10 := Nat.digits_lt_base (by norm_num) hd
    exact isDig_digitChar (by omega)

theorem mem_natDecChars_ne_dash {n : Nat} {c : Char} (hc : c ∈ natDecChars n) : c ≠ '-' := by
  intro h
  subst h
  have := mem_natDecChars_isDig hc
  simp [isDig] at this

theorem foldr_digits_ofDigits :
    ∀ l : List Nat, (∀ d ∈ l, d < 10) →
      List.foldr (fun d a => 10 * a + charVal (digitChar d)) 0 l = Nat.ofDigits 10 l := by
  intro l
  induction l with
  | nil => intro h; rfl
  | cons d l ih =>
    intro h
    have hd : d < 10 := h d (List.mem_cons_self d l)
    rw [List.foldr_cons, ih (fun x hx => h x (List.mem_cons_of_mem d hx)),
      charVal_digitChar (by omega), Nat.ofDigits_cons]
    omega

theorem digitsVal_natDecChars (n : Nat) : digitsVal (natDecChars n) = n := by
  rw [natDecChars_eq]
  by_cases h0 : n = 0
  · rw [if_pos h0, h0]; rfl
  · rw [if_neg h0]
    unfold digitsVal
    rw [List.foldl_reverse, List.foldr_map]
    have := foldr_digits_ofDigits (Nat.digits 10 n)
      (fun d hd => Nat.digits_lt_base (by norm_num) hd)
    rw [this, Nat.ofDigits_digits]

theorem parseNatChars_natDecChars (n : Nat) : parseNatChars (natDecChars n) = some n := by
  unfold parseNatChars
  rw [List.takeWhile_eq_self_iff.mpr (fun c hc => mem_natDecChars_isDig hc)]
  rw [if_neg (by simp [natDecChars_ne_nil n])]
  rw [digitsVal_natDecChars]

theorem parseIntChars_natDecChars (n : Nat) : parseIntChars (natDecChars n) = some (n : Int) := by
  unfold parseIntChars
  obtain ⟨c, t, hct⟩ := List.exists_cons_of_ne_nil (natDecChars_ne_nil n)
  have hc : c ≠ '-' := mem_natDecChars_ne_dash (by rw [hct]; exact List.mem_cons_self c t)
  rw [if_neg (by rw [hct]; simpa using hc)]
  rw [parseNatChars_natDecChars]
  rfl

theorem intRepr_nonneg {y : Int} (hy : 0 ≤ y) : intRepr y = natDecChars y.toNat := by
  unfold intRepr
  rw [if_neg (by omega)]

theorem parseIntChars_intRepr {y : Int} (hy : 0 ≤ y) : parseIntChars (intRepr y) = some y := by
  rw [intRepr_nonneg hy, parseIntChars_natDecChars, Int.toNat_of_nonneg hy]

theorem digitsVal_replicate_zero (k : Nat) (l : List Char) :
    digitsVal (List.replicate k '0' ++ l) = digitsVal l := by
  induction k with
  | zero => rfl
  | succ k ih =>
    rw [List.replicate_succ, List.cons_append]
    show digitsVal (List.replicate k '0' ++ l) = digitsVal l
    exact ih

theorem mem_pad2 {l : List Char} {c : Char} (hc : c ∈ pad2 l) : c = '0' ∨ c ∈ l := by
  unfold pad2 at hc
  by_cases h : l.length < 2
  · rw [if_pos h] at hc
    rcases List.mem_append.mp hc with h1 | h1
    · exact Or.inl (List.eq_of_mem_replicate h1)
    · exact Or.inr h1
  · rw [if_neg h] at hc
    exact Or.inr hc

theorem parseNatChars_pad2_natDecChars (n : Nat) :
    parseNatChars (pad2 (natDecChars n)) = some n := by
  unfold parseNatChars
  have hdig : ∀ c ∈ pad2 (natDecChars n), isDig c = true := by
    intro c hc
    rcases mem_pad2 hc with rfl | hc2
    · decide
    · exact mem_natDecChars_isDig hc2
  rw [List.takeWhile_eq_self_iff.mpr hdig]
  have hne : pad2 (natDecChars n) ≠ [] := by
    unfold pad2
    by_cases h : (natDecChars n).length < 2
    · rw [if_pos h]
      simp [natDecChars_ne_nil n]
    · rw [if_neg h]
      exact natDecChars_ne_nil n
  rw [if_neg (by simp [hne])]
  unfold pad2
  by_cases h : (natDecChars n).length < 2
  · rw [if_pos h, digitsVal_replicate_zero, digitsVal_natDecChars]
  · rw [if_neg h, digitsVal_natDecChars]

theorem parseIntChars_pad2_natDecChars (n : Nat) :
    parseIntChars (pad2 (natDecChars n)) = some (n : Int) := by
  unfold parseIntChars
  have hne : pad2 (natDecChars n) ≠ [] := by
    unfold pad2
    by_cases h : (natDecChars n).length < 2
    · rw [if_pos h]
      simp [natDecChars_ne_nil n]
    · rw [if_neg h]
      exact natDecChars_ne_nil n
  obtain ⟨c, t, hct⟩ := List.exists_cons_of_ne_nil hne
  have hcm : c ∈ pad2 (natDecChars n) := by rw [hct]; exact List.mem_cons_self c t
  have hc : c ≠ '-' := by
    rcases mem_pad2 hcm with rfl | hc2
    · decide
    · exact mem_natDecChars_ne_dash hc2
  rw [if_neg (by rw [hct]; simpa using hc)]
  rw [parseNatChars_pad2_natDecChars]
  rfl

/-! ## Splitting and month-key parsing lemmas -/

theorem splitDashChars_cons (c : Char) (cs : List Char) :
    splitDashChars (c :: cs) =
      if c = '-' then [] :: splitDashChars cs
      else
        match splitDashChars cs with
        | [] => [[c]]
        | p :: ps => (c :: p) :: ps := rfl

theorem splitDashChars_ne_nil (l : List Char) : splitDashChars l ≠ [] := by
  cases l with
  | nil => simp [splitDashChars]
  | cons c cs =>
    rw [splitDashChars_cons]
    by_cases h : c = '-'
    · rw [if_pos h]; simp
    · rw [if_neg h]
      rcases hsc : splitDashChars cs with _ | ⟨p, ps⟩ <;> simp

theorem splitDashChars_no_dash (l : List Char) (h : ∀ c ∈ l, c ≠ '-') :
    splitDashChars l = [l] := by
  induction l with
  | nil => rfl
  | cons c cs ih =>
    rw [splitDashChars_cons]
    rw [if_neg (h c (List.mem_cons_self c cs))]
    rw [ih (fun x hx => h x (List.mem_cons_of_mem c hx))]

theorem splitDashChars_append (a b : List Char) (h : ∀ c ∈ a, c ≠ '-') :
    splitDashChars (a ++ '-' :: b) = a :: splitDashChars b := by
  induction a with
  | nil =>
    show splitDashChars ('-' :: b) = [] :: splitDashChars b
    rw [splitDashChars_cons, if_pos rfl]
  | cons c cs ih =>
    show splitDashChars (c :: (cs ++ '-' :: b)) = (c :: cs) :: splitDashChars b
    rw [splitDashChars_cons]
    rw [if_neg (h c (List.mem_cons_self c cs))]
    rw [ih (fun x hx => h x (List.mem_cons_of_mem c hx))]

theorem mkKey_data (y : Int) (mo : Nat) :
    (mkKey y mo).data = intRepr y ++ '-' :: pad2 (natDecChars mo) := rfl

theorem keyParts_mkKey (y : Int) (mo : Nat) (hy : 0 ≤ y) :
    keyParts (mkKey y mo) = (natDecChars y.toNat, pad2 (natDecChars mo)) := by
  unfold keyParts
  rw [mkKey_data, intRepr_nonneg hy]
  rw [splitDashChars_append _ _ (fun c hc => mem_natDecChars_ne_dash hc)]
  rw [splitDashChars_no_dash (pad2 (natDecChars mo)) (fun c hc => by
    rcases mem_pad2 hc with rfl | hc2
    · decide
    · exact mem_natDecChars_ne_dash hc2)]
  rfl

theorem keyYearNum_mkKey (y : Int) (mo : Nat) (hy : 0 ≤ y) :
    keyYearNum (mkKey y mo) = y := by
  unfold keyYearNum
  rw [keyParts_mkKey y mo hy]
  show (parseIntChars (natDecChars y.toNat)).getD 0 = y
  rw [parseIntChars_natDecChars, Int.toNat_of_nonneg hy]
  rfl

theorem keyMonthNum_mkKey (y : Int) (mo : Nat) (hy : 0 ≤ y) :
    keyMonthNum (mkKey y mo) = (mo : Int) := by
  unfold keyMonthNum
  rw [keyParts_mkKey y mo hy]
  show (parseIntChars (pad2 (natDecChars mo))).getD 0 = (mo : Int)
  rw [parseIntChars_pad2_natDecChars]
  rfl

theorem getPreviousMonth_mkKey (y : Int) (mo : Nat) (hy : 0 ≤ y)
    (hmo1 : 1 ≤ mo) (hmo2 : mo ≤ 12) :
    getPreviousMonth (mkKey y mo) =
      if mo = 1 then mkKey (y - 1) 12 else mkKey y (mo - 1) := by
  unfold getPreviousMonth
  rw [keyYearNum_mkKey y mo hy, keyMonthNum_mkKey y mo hy, keyParts_mkKey y mo hy]
  by_cases h1 : mo = 1
  · subst h1
    rw [if_pos (by norm_num : ((1 : Nat) : Int) = 1), if_pos rfl]
    rfl
  · rw [if_neg (by exact_mod_cast h1), if_neg h1]
    unfold mkKey
    rw [show ((mo : Int) - 1) = ((mo - 1 : Nat) : Int) by omega]
    rw [intRepr_nonneg (by positivity), intRepr_nonneg hy]
    simp

theorem getNextMonth_mkKey (y : Int) (mo : Nat) (hy : 0 ≤ y)
    (hmo1 : 1 ≤ mo) (hmo2 : mo ≤ 12) :
    getNextMonth (mkKey y mo) =
      if mo = 12 then mkKey (y + 1) 1 else mkKey y (mo + 1) := by
  unfold getNextMonth
  rw [keyYearNum_mkKey y mo hy, keyMonthNum_mkKey y mo hy, keyParts_mkKey y mo hy]
  by_cases h12 : mo = 12
  · subst h12
    rw [if_pos (by norm_num : ((12 : Nat) : Int) = 12), if_pos rfl]
    rfl
  · rw [if_neg (by exact_mod_cast h12), if_neg h12]
    unfold mkKey
    rw [show ((mo : Int) + 1) = ((mo + 1 : Nat) : Int) by omega]
    rw [intRepr_nonneg (by positivity), intRepr_nonneg hy]
    simp

/-! ## Lexicographic comparison of rendered keys -/

theorem natDecChars4 {n : Nat} (h1 : 1000 ≤ n) (h2 : n ≤ 9999) :
    natDecChars n = [digitChar (n / 1000), digitChar (n / 100 % 10),
      digitChar (n / 10 % 10), digitChar (n % 10)] := by
  rw [natDecChars_eq, if_neg (by omega)]
  have d1 : Nat.digits 10 n = n % 10 :: Nat.digits 10 (n / 10) :=
    Nat.digits_def' (by norm_num) (by omega)
  have d2 : Nat.digits 10 (n / 10) = n / 10 % 10 :: Nat.digits 10 (n / 10 / 10) :=
    Nat.digits_def' (by norm_num) (by omega)
  have d3 : Nat.digits 10 (n / 10 / 10) =
      n / 10 / 10 % 10 :: Nat.digits 10 (n / 10 / 10 / 10) :=
    Nat.digits_def' (by norm_num) (by omega)
  have d4 : Nat.digits 10 (n / 10 / 10 / 10) =
      n / 10 / 10 / 10 % 10 :: Nat.digits 10 (n / 10 / 10 / 10 / 10) :=
    Nat.digits_def' (by norm_num) (by omega)
  have d5 : n / 10 / 10 / 10 / 10 = 0 := by omega
  rw [d1, d2, d3, d4, d5, Nat.digits_zero]
  have e1 : n / 10 / 10 / 10 % 10 = n / 1000 := by omega
  have e2 : n / 10 / 10 % 10 = n / 100 % 10 := by omega
  rw [e1, e2]
  rfl

theorem lex_append_left (p l₁ l₂ : List Char) (h : List.Lex (· < ·) l₁ l₂) :
    List.Lex (· < ·) (p ++ l₁) (p ++ l₂) := by
  induction p with
  | nil => exact h
  | cons c cs ih => exact List.Lex.cons ih

theorem lex_natDecChars4_append {a b : Nat} (r₁ r₂ : List Char)
    (ha : 1000 ≤ a) (hab : a < b) (hb : b ≤ 9999) :
    List.Lex (· < ·) (natDecChars a ++ r₁) (natDecChars b ++ r₂) := by
  rw [natDecChars4 ha (by omega), natDecChars4 (by omega) hb]
  simp only [List.cons_append, List.nil_append]
  rcases Nat.lt_trichotomy (a / 1000) (b / 1000) with h | h | h
  · exact List.Lex.rel (digitChar_lt h (by omega))
  · rw [h]
    apply List.Lex.cons
    rcases Nat.lt_trichotomy (a / 100 % 10) (b / 100 % 10) with h2 | h2 | h2
    · exact List.Lex.rel (digitChar_lt h2 (by omega))
    · rw [h2]
      apply List.Lex.cons
      rcases Nat.lt_trichotomy (a / 10 % 10) (b / 10 % 10) with h3 | h3 | h3
      · exact List.Lex.rel (digitChar_lt h3 (by omega))
      · rw [h3]
        apply List.Lex.cons
        exact List.Lex.rel (digitChar_lt (by omega) (by omega))
      · omega
    · omega
  · omega

/-- C9 (amended): on four-digit-year keys, `getPreviousMonth` and
`getNextMonth` render the canonical adjacent key (rolling December↔January),
both roundtrips recover the original key, and adjacency agrees with
lexicographic string order except at the very boundary of the four-digit
format: `previousMonth` of `1000-01` renders the un-padded `999-12`, and
`nextMonth` of `9999-12` renders the five-digit `10000-01`, which do not
compare lexicographically. -/
theorem month_adjacency_roundtrip_and_lex (y : Int) (mo : Nat)
    (hy1 : 1000 ≤ y) (hy2 : y ≤ 9999) (hmo1 : 1 ≤ mo) (hmo2 : mo ≤ 12) :
    getPreviousMonth (mkKey y mo) = (if mo = 1 then mkKey (y - 1) 12 else mkKey y (mo - 1)) ∧
    getNextMonth (mkKey y mo) = (if mo = 12 then mkKey (y + 1) 1 else mkKey y (mo + 1)) ∧
    getNextMonth (getPreviousMonth (mkKey y mo)) = mkKey y mo ∧
    getPreviousMonth (getNextMonth (mkKey y mo)) = mkKey y mo ∧
    (¬ (y = 1000 ∧ mo = 1) → getPreviousMonth (mkKey y mo) < mkKey y mo) ∧
    (¬ (y = 9999 ∧ mo = 12) → mkKey y mo < getNextMonth (mkKey y mo)) := by
  have hy0 : (0 : Int) ≤ y := by omega
  have hprev := getPreviousMonth_mkKey y mo hy0 hmo1 hmo2
  have hnext := getNextMonth_mkKey y mo hy0 hmo1 hmo2
  refine ⟨hprev, hnext, ?_, ?_, ?_, ?_⟩
  · rw [hprev]
    by_cases h1 : mo = 1
    · subst h1
      rw [if_pos rfl, getNextMonth_mkKey (y - 1) 12 (by omega) (by norm_num) (by norm_num),
        if_pos rfl, show y - 1 + 1 = y by ring]
    · rw [if_neg h1, getNextMonth_mkKey y (mo - 1) hy0 (by omega) (by omega),
        if_neg (by omega), show mo - 1 + 1 = mo by omega]
  · rw [hnext]
    by_cases h12 : mo = 12
    · subst h12
      rw [if_pos rfl, getPreviousMonth_mkKey (y + 1) 1 (by omega) (by norm_num) (by norm_num),
        if_pos rfl, show y + 1 - 1 = y by ring]
    · rw [if_neg h12, getPreviousMonth_mkKey y (mo + 1) hy0 (by omega) (by omega),
        if_neg (by omega), show mo + 1 - 1 = mo by omega]
  · intro hne
    rw [hprev]
    by_cases h1 : mo = 1
    · subst h1
      have hy : 1001 ≤ y := by
        by_contra hcon
        exact hne ⟨by omega, rfl⟩
      rw [if_pos rfl, String.lt_iff_toList_lt]
      show (intRepr (y - 1) ++ '-' :: pad2 (natDecChars 12)) <
        (intRepr y ++ '-' :: pad2 (natDecChars 1))
      rw [intRepr_nonneg (by omega), intRepr_nonneg hy0]
      exact lex_natDecChars4_append _ _ (by omega) (by omega) (by omega)
    · rw [if_neg h1, String.lt_iff_toList_lt]
      show (intRepr y ++ '-' :: pad2 (natDecChars (mo - 1))) <
        (intRepr y ++ '-' :: pad2 (natDecChars mo))
      rw [List.append_cons (intRepr y) '-' (pad2 (natDecChars (mo - 1))),
        List.append_cons (intRepr y) '-' (pad2 (natDecChars mo))]
      apply lex_append_left
      interval_cases mo
      · omega
      all_goals decide
  · intro hne
    rw [hnext]
    by_cases h12 : mo = 12
    · subst h12
      have hy : y ≤ 9998 := by
        by_contra hcon
        exact hne ⟨by omega, rfl⟩
      rw [if_pos rfl, String.lt_iff_toList_lt]
      show (intRepr y ++ '-' :: pad2 (natDecChars 12)) <
        (intRepr (y + 1) ++ '-' :: pad2 (natDecChars 1))
      rw [intRepr_nonneg hy0, intRepr_nonneg (by omega)]
      exact lex_natDecChars4_append _ _ (by omega) (by omega) (by omega)
    · rw [if_neg h12, String.lt_iff_toList_lt]
      show (intRepr y ++ '-' :: pad2 (natDecChars mo)) <
        (intRepr y ++ '-' :: pad2 (natDecChars (mo + 1)))
      rw [List.append_cons (intRepr y) '-' (pad2 (natDecChars mo)),
        List.append_cons (intRepr y) '-' (pad2 (natDecChars (mo + 1)))]
      apply lex_append_left
      interval_cases mo
      all_goals decide

/-- Witness for C9 (amended) at October 2025. -/
theorem month_adjacency_roundtrip_and_lex_witness :
    getPreviousMonth "2025-10" = "2025-09" ∧
    getNextMonth "2025-10" = "2025-11" ∧
    getNextMonth (getPreviousMonth "2025-10") = "2025-10" ∧
    getPreviousMonth (getNextMonth "2025-10") = "2025-10" ∧
    getPreviousMonth "2025-10" < "2025-10" ∧
    "2025-10" < getNextMonth "2025-10" := by
  have h := month_adjacency_roundtrip_and_lex 2025 10 (by norm_num) (by norm_num)
    (by norm_num) (by norm_num)
  exact ⟨h.1, h.2.1, h.2.2.1, h.2.2.2.1,
    h.2.2.2.2.1 (by norm_num), h.2.2.2.2.2 (by norm_num)⟩

/-- Counterexample to C9 as stated: at the key `1000-01` the previous key
renders as the three-digit-year string `999-12`, which is lexicographically
greater, not smaller. -/
theorem prevMonth_lex_fails_at_year_1000 :
    getPreviousMonth "1000-01" = "999-12" ∧ ¬ ("999-12" < "1000-01") := by
  refine ⟨rfl, ?_⟩
  rw [String.lt_iff_toList_lt]
  decide

/-! ## First tracked month and the earliest-month invariant -/

theorem head?_mem {α : Type} {l : List α} {a : α} (h : l.head? = some a) : a ∈ l := by
  cases l with
  | nil => cases h
  | cons x xs =>
    rw [List.head?_cons] at h
    have hx : x = a := by injection h
    rw [← hx]
    exact List.mem_cons_self x xs

theorem tsLeB_iff (x y : Timestamp) :
    tsLeB x y = true ↔
      (x.monthIdx < y.monthIdx ∨ (x.monthIdx = y.monthIdx ∧ x.tick ≤ y.tick)) := by
  rcases x with ⟨xi, xt⟩
  rcases y with ⟨yi, yt⟩
  show (!(decide (yi < xi) || (yi == xi && decide (yt < xt)))) = true ↔ _
  simp only [Bool.not_eq_true', Bool.or_eq_false_iff, Bool.and_eq_false_iff,
    decide_eq_false_iff_not, beq_eq_false_iff_ne, ne_eq]
  omega

theorem tsLeB_trans (a b c : Timestamp) (h1 : tsLeB a b = true) (h2 : tsLeB b c = true) :
    tsLeB a c = true := by
  rw [tsLeB_iff] at h1 h2 ⊢
  rcases h1 with h1 | h1 <;> rcases h2 with h2 | h2 <;> [left; left; left; right] <;> omega

theorem tsLeB_total (a b : Timestamp) : (tsLeB a b || tsLeB b a) = true := by
  rw [Bool.or_eq_true, tsLeB_iff, tsLeB_iff]
  omega

theorem tsLeB_refl (a : Timestamp) : tsLeB a a = true := by
  rw [tsLeB_iff]
  omega

theorem getFirstTrackedMonth_eq (now : Timestamp) (transactions : List Transaction) :
    getFirstTrackedMonth now transactions =
      mkKey (firstTrackedIdx now transactions / 12)
        ((firstTrackedIdx now transactions % 12).toNat + 1) := by
  unfold getFirstTrackedMonth firstTrackedIdx tsYear tsMonth0
  cases hs : (transactions.mergeSort fun a b => tsLeB a.timestamp b.timestamp).head? <;> simp

theorem firstTrackedIdx_nonneg (now : Timestamp) (transactions : List Transaction)
    (hnow : 0 ≤ now.monthIdx) (hts : ∀ t ∈ transactions, 0 ≤ t.timestamp.monthIdx) :
    0 ≤ firstTrackedIdx now transactions := by
  unfold firstTrackedIdx
  cases hs : (transactions.mergeSort fun a b => tsLeB a.timestamp b.timestamp).head? with
  | none => exact hnow
  | some t =>
    apply hts
    exact (List.mergeSort_perm transactions
      fun a b => tsLeB a.timestamp b.timestamp).subset (head?_mem hs)

/-- C7: the first tracked month — the month of the chronologically earliest
transaction, or the clock's month when the ledger is empty — receives a zero
carry-in whenever no budget record names any calendar month strictly before
it.  Timestamps are restricted to nonnegative month indices (years from 0
onward), matching real transaction dates; "strictly before" is calendar
order on rendered `year-month` keys. -/
theorem firstTrackedMonth_no_self_carry (now : Timestamp) (transactions : List Transaction)
    (budgets : List MonthlyBudget)
    (hnow : 0 ≤ now.monthIdx)
    (hts : ∀ t ∈ transactions, 0 ≤ t.timestamp.monthIdx)
    (hinv : ∀ b ∈ budgets, ∀ (y : Int) (mo : Nat), 1 ≤ mo → mo ≤ 12 →
      b.month_year = mkKey y mo →
      ¬ monthIdxP y mo < firstTrackedIdx now transactions) :
    calculateRolloverAmount transactions budgets (getFirstTrackedMonth now transactions) = 0 ∧
    (∀ t0, (transactions.mergeSort fun a b => tsLeB a.timestamp b.timestamp).head? = some t0 →
      t0 ∈ transactions ∧ ∀ t ∈ transactions, tsLeB t0.timestamp t.timestamp = true) ∧
    (transactions = [] →
      getFirstTrackedMonth now transactions = mkKey (tsYear now) ((tsMonth0 now).toNat + 1)) := by
  refine ⟨?_, ?_, ?_⟩
  · have hf0 : 0 ≤ firstTrackedIdx now transactions :=
      firstTrackedIdx_nonneg now transactions hnow hts
    have hy0 : 0 ≤ firstTrackedIdx now transactions / 12 := by omega
    have hmo1 : 1 ≤ (firstTrackedIdx now transactions % 12).toNat + 1 := by omega
    have hmo2 : (firstTrackedIdx now transactions % 12).toNat + 1 ≤ 12 := by omega
    rw [getFirstTrackedMonth_eq now transactions]
    apply calculateRolloverAmount_of_find_none
    apply List.find?_eq_none.mpr
    intro b hb
    simp only [beq_iff_eq, Bool.not_eq_true]
    intro heq
    rw [getPreviousMonth_mkKey _ _ hy0 hmo1 hmo2] at heq
    by_cases hm1 : (firstTrackedIdx now transactions % 12).toNat + 1 = 1
    · rw [if_pos hm1] at heq
      have := hinv b hb (firstTrackedIdx now transactions / 12 - 1) 12
        (by norm_num) (by norm_num) heq
      simp only [monthIdxP] at this
      omega
    · rw [if_neg hm1] at heq
      have := hinv b hb (firstTrackedIdx now transactions / 12)
        ((firstTrackedIdx now transactions % 12).toNat + 1 - 1) (by omega) (by omega) heq
      simp only [monthIdxP] at this
      omega
  · intro t0 h0
    have hmem : t0 ∈ transactions :=
      (List.mergeSort_perm transactions
        fun a b => tsLeB a.timestamp b.timestamp).subset (head?_mem h0)
    refine ⟨hmem, fun t ht => ?_⟩
    have hsorted := List.sorted_mergeSort
      (fun a b c => tsLeB_trans a.timestamp b.timestamp c.timestamp)
      (fun a b => tsLeB_total a.timestamp b.timestamp) transactions
    have hmem2 : t ∈ transactions.mergeSort fun a b => tsLeB a.timestamp b.timestamp :=
      (List.mergeSort_perm transactions
        fun a b => tsLeB a.timestamp b.timestamp).mem_iff.mpr ht
    cases hl : transactions.mergeSort fun a b => tsLeB a.timestamp b.timestamp with
    | nil => rw [hl] at h0; cases h0
    | cons a as =>
      rw [hl] at h0 hmem2 hsorted
      rw [List.head?_cons] at h0
      have ha : a = t0 := by injection h0
      rcases List.mem_cons.mp hmem2 with rfl | hmem3
      · rw [ha]
        exact tsLeB_refl t0.timestamp
      · have := (List.pairwise_cons.mp hsorted).1 t hmem3
        rw [ha] at this
        exact this
  · intro h
    subst h
    unfold getFirstTrackedMonth
    simp [List.mergeSort_nil]

/-- Witness for C7 on a one-transaction ledger with no budget records. -/
theorem firstTrackedMonth_no_self_carry_witness :
    calculateRolloverAmount [⟨1, "dev", "coffee", 5, TxType.withdraw, ⟨24309, 0⟩, "", "", none⟩]
      []
      (getFirstTrackedMonth ⟨24400, 3⟩
        [⟨1, "dev", "coffee", 5, TxType.withdraw, ⟨24309, 0⟩, "", "", none⟩]) = 0 :=
  (firstTrackedMonth_no_self_carry ⟨24400, 3⟩
    [⟨1, "dev", "coffee", 5, TxType.withdraw, ⟨24309, 0⟩, "", "", none⟩] []
    (by norm_num)
    (by
      intro t ht
      rcases List.mem_singleton.mp ht with rfl
      norm_num)
    (fun b hb => absurd hb (List.not_mem_nil b))).1

end BudgetTracker
